import Mathlib

set_option maxRecDepth 40000

/-!
Shallow embedding of the M-Bus frame codec and protocol operations of
em-admin.c (hn/em-admin). Byte buffers are modelled as List Nat with
values below 256; out-of-range reads use the default 0 of List.getD.
Machine arithmetic on unsigned char values is modelled with explicit
percent 256 reductions at the points where the C code truncates.
-/

namespace EmAdmin

/-- Checksum of a long frame, from mbus_cslong: the C loop runs an
unsigned char accumulator over indices i with 4 <= i < len - 2. -/
def mbus_cslong (frame : List Nat) (len : Nat) : Nat :=
  (List.range' 4 (len - 2 - 4)).foldl (fun cs i => (cs + frame.getD i 0) % 256) 0

/-- Distinguishable failure causes of mbus_checklong; each corresponds to
one of the log_line error messages preceding a return 0 in the C code. -/
inductive LongErr where
  | tooSmall
  | badStart
  | lenMismatch
  | tooBig
  | badStop
  | badChecksum
  deriving DecidableEq, Repr

/-- Long-frame validator mbus_checklong with the failure cause made
explicit. The consumed length ll = data[1] + 4 + 2 is an unsigned char in
the C code, hence the percent 256; the occurrences of
(data.getD 1 0 + 4 + 2) % 256 below all stand for that single variable.
The minimum size 9 is MBUS_FRAME_LONG_HDR_LEN (7) plus
MBUS_FRAME_FTR_LEN (2). -/
def mbus_checklong_err (data : List Nat) (len : Nat) : Except LongErr Nat :=
  if len < 9 then .error .tooSmall
  else if data.getD 0 0 ≠ 0x68 ∨ data.getD 3 0 ≠ 0x68 then .error .badStart
  else if data.getD 1 0 ≠ data.getD 2 0 then .error .lenMismatch
  else if (data.getD 1 0 + 4 + 2) % 256 > len then .error .tooBig
  else if data.getD ((data.getD 1 0 + 4 + 2) % 256 - 1) 0 ≠ 0x16 then .error .badStop
  else if mbus_cslong data ((data.getD 1 0 + 4 + 2) % 256) ≠
      data.getD ((data.getD 1 0 + 4 + 2) % 256 - 2) 0 then .error .badChecksum
  else .ok ((data.getD 1 0 + 4 + 2) % 256)

/-- mbus_checklong as the C function returns it: 0 on any failure,
otherwise the consumed length. -/
def mbus_checklong (data : List Nat) (len : Nat) : Nat :=
  match mbus_checklong_err data len with
  | .error _ => 0
  | .ok ll => ll

/-- Short-frame validator mbus_checkshort: 0 on failure, 5 on success.
The checksum compare casts data[1] + data[2] to unsigned char. -/
def mbus_checkshort (data : List Nat) (len : Nat) : Nat :=
  if len < 5 then 0
  else if data.getD 0 0 ≠ 0x10 then 0
  else if data.getD 4 0 ≠ 0x16 then 0
  else if (data.getD 1 0 + data.getD 2 0) % 256 ≠ data.getD 3 0 then 0
  else 5

/-- The in-place checksum store of mbus_io for a short frame:
out[outlen - 2] = out[1] + out[2] (unsigned char). -/
def mbus_fill_short (out : List Nat) : List Nat :=
  out.set (out.length - 2) ((out.getD 1 0 + out.getD 2 0) % 256)

/-- The in-place checksum store of mbus_io for a long frame:
out[outlen - 2] = mbus_cslong(out, outlen). -/
def mbus_fill_long (out : List Nat) : List Nat :=
  out.set (out.length - 2) (mbus_cslong out out.length)

/-- The outbound path of mbus_io: fills the checksum slot and
self-validates with the same validators used for inbound frames; none
models the -EPROTO return taken before anything is written. -/
def mbus_io_out (out : List Nat) : Option (List Nat) :=
  if out.length = 5 ∧ out.getD 0 0 = 0x10 then
    if mbus_checkshort (mbus_fill_short out) out.length = 0 then none
    else some (mbus_fill_short out)
  else if 9 ≤ out.length ∧ out.getD 0 0 = 0x68 then
    if mbus_checklong (mbus_fill_long out) out.length = 0 then none
    else some (mbus_fill_long out)
  else none

/-- Error results of mbus_io: eproto models -EPROTO from the outbound
self-check, eio models the -EIO that serial_read returns on timeout with
zero bytes received. -/
inductive MbusErr where
  | eproto
  | eio
  deriving DecidableEq, Repr

/-- The positive errno value mbus_io_acked and the em operations return
after negating the mbus_io result: EPROTO is 71 and EIO is 5 on Linux. -/
def errnoOf : MbusErr → Nat
  | .eproto => 71
  | .eio => 5

/-- mbus_io: the first component is the list of frames written to the
transport, the second the read result. reply is what the device sends;
serial_read delivers at most inlen bytes of it and fails with -EIO when
nothing arrives. -/
def mbus_io (out : List Nat) (inlen : Nat) (reply : List Nat) :
    List (List Nat) × Except MbusErr (List Nat) :=
  match mbus_io_out out with
  | none => ([], .error .eproto)
  | some sent =>
      ([sent], if (reply.take inlen).isEmpty then .error .eio
               else .ok (reply.take inlen))

/-- mbus_io_acked: 8-byte receive buffer; a negative mbus_io result is
returned negated; otherwise EPROTO unless the first received byte is the
ACK 0xE5. -/
def mbus_io_acked (out : List Nat) (reply : List Nat) : List (List Nat) × Nat :=
  match mbus_io out 8 reply with
  | (w, .error e) => (w, errnoOf e)
  | (w, .ok recvd) =>
      if recvd.length < 1 ∨ recvd.getD 0 0 ≠ 0xE5 then (w, 71) else (w, 0)

/-- A long frame as the em operations lay it out before calling mbus_io:
start, the length byte L = 3 + payload length twice, start again, control,
address, control info, the payload, a zero checksum slot and the stop
byte. -/
def mbus_build_long (c a ci : Nat) (payload : List Nat) : List Nat :=
  [0x68, 3 + payload.length, 3 + payload.length, 0x68, c, a, ci] ++
    payload ++ [0x00, 0x16]

/-- A built long frame with an arbitrary value v in the checksum slot:
mbus_build_long c a ci payload is frameFilled c a ci 0 payload, and the
outbound path of mbus_io turns it into frameFilled with the computed
checksum. -/
def frameFilled (c a ci v : Nat) (payload : List Nat) : List Nat :=
  [0x68, 3 + payload.length, 3 + payload.length, 0x68, c, a, ci] ++
    payload ++ [v, 0x16]

/-- The per-data-format byte widths of the record decoder, the ldb table
in em_read_info. -/
def ldb : List Nat := [0, 1, 2, 3, 4, 4, 6, 8]

/-- Decoded value of a record, as the em_read_info loop prints it: a
datetime for data format 4 with VIF 0x6d, a plain little-endian 32-bit
integer for other data format 4 records, a date for data format 2 with
VIF 0x6c. -/
inductive MVal where
  | datetime (year month day hour minute : Nat)
  | date (year month day : Nat)
  | intval (v : Nat)
  deriving DecidableEq, Repr

/-- One decoded DIF/VIF record of the em_read_info loop. -/
structure MRec where
  dif : Nat
  dife : Option Nat
  vif : Nat
  vife : Option Nat
  sn : Nat
  raw : List Nat
  val : Option MVal
  deriving DecidableEq, Repr

/-- One iteration of the em_read_info record loop at cursor p: the decoded
record and the next cursor d + l. -/
def em_decode_record (frame : List Nat) (p : Nat) : MRec × Nat :=
  let hasdife := (frame.getD p 0 &&& 0x80) >>> 7
  let hasvife := (frame.getD (p + 1 + hasdife) 0 &&& 0x80) >>> 7
  let d := p + 1 + hasdife + 1 + hasvife
  let df := frame.getD p 0 &&& 0xF
  let l := ldb.getD df 0
  let vif := frame.getD (p + hasdife + 1) 0
  let sn := ((frame.getD p 0 &&& 0x40) >>> 6) |||
            (if hasdife = 1 then (frame.getD (p + 1) 0 &&& 0xF) <<< 1 else 0)
  let val : Option MVal :=
    if df = 4 ∧ vif = 0x6d then
      some (.datetime
        (2000 + ((frame.getD (d + 2) 0 >>> 5) ||| ((frame.getD (d + 3) 0 &&& 0xF0) >>> 1)))
        (frame.getD (d + 3) 0 &&& 0xF)
        (frame.getD (d + 2) 0 &&& 0x1F)
        (frame.getD (d + 1) 0)
        (frame.getD d 0))
    else if df = 4 then
      some (.intval ((frame.getD (d + 3) 0 <<< 24) ||| (frame.getD (d + 2) 0 <<< 16) |||
                     (frame.getD (d + 1) 0 <<< 8) ||| frame.getD d 0))
    else if df = 2 ∧ vif = 0x6c then
      some (.date
        (2000 + ((frame.getD d 0 >>> 5) ||| ((frame.getD (d + 1) 0 &&& 0xF0) >>> 1)))
        (frame.getD (d + 1) 0 &&& 0xF)
        (frame.getD d 0 &&& 0x1F))
    else none
  ({ dif := frame.getD p 0
   , dife := if hasdife = 1 then some (frame.getD (p + 1) 0) else none
   , vif := vif
   , vife := if hasvife = 1 then some (frame.getD (p + 1 + hasdife + 1) 0) else none
   , sn := sn
   , raw := (List.range l).map fun j => frame.getD (d + j) 0
   , val := val }, d + l)

/-- The record loop of em_read_info from cursor p: stops (before emitting
a record) when the DIF low nibble exceeds 7, and stops after emitting a
record when the new cursor exceeds the declared length byte frame[1]. The
fuel argument dominates the loop count: the cursor grows by at least 2
per iteration and the loop stops once it passes frame[1], a byte. -/
def em_info_records (frame : List Nat) : Nat → Nat → List MRec
  | 0, _ => []
  | fuel + 1, p =>
    if 7 < frame.getD p 0 &&& 0xF then []
    else
      let r := em_decode_record frame p
      if frame.getD 1 0 < r.2 then [r.1]
      else r.1 :: em_info_records frame fuel r.2

/-- The short REQ_UD2 request frame of em_read_info, checksum slot still
zero. -/
def em_read_info_frame_out : List Nat := [0x10, 0x7b, 254, 0x00, 0x16]

/-- em_read_info: sends the REQ_UD2 short frame, requires a validated
long-frame reply of consumed length at least 71, then walks the record
loop from offset MBUS_FRAME_LONG_HDR_LEN + MBUS_RSPUD12_HDR_LEN = 19.
Returns the frames written, the return code, and the decoded records. -/
def em_read_info (reply : List Nat) : List (List Nat) × Nat × List MRec :=
  match mbus_io em_read_info_frame_out 256 reply with
  | (w, .error e) => (w, errnoOf e, [])
  | (w, .ok recvd) =>
      if mbus_checklong recvd recvd.length < 71 then (w, 71, [])
      else (w, 0, em_info_records recvd 256 19)

/-- One decoded monthly-totals record of em_read_months at index i: the
6-byte stride starts at offset 19 + 6 i past the long-frame header and
the response envelope. -/
structure MonthRec where
  year : Nat
  month : Nat
  day : Nat
  reading : Int
  deriving DecidableEq, Repr

/-- Two's-complement reinterpretation of a 32-bit pattern as a signed
int. The reading expression of em_read_months shifts plain int values
with no unsigned cast (unlike the matching expression in em_read_info),
so a top byte of 0x80 or more overflows the signed 32-bit int; the
wraparound value the platform produces, which log_line then prints as a
negative number, is what this function returns. -/
def int32OfBits (u : Nat) : Int :=
  if u % 2 ^ 32 < 2 ^ 31 then (u % 2 ^ 32 : Int) else (u % 2 ^ 32 : Int) - 2 ^ 32

/-- Field extraction of one monthly record, exactly as the log_line call
in em_read_months computes it; the reading is assembled in signed 32-bit
int arithmetic. -/
def em_month_rec (frame : List Nat) (i : Nat) : MonthRec :=
  let off := 7 + 12 + i * 6
  { year := 2000 + ((frame.getD (off + 1) 0 &&& 0xFE) >>> 1)
  , month := (((frame.getD (off + 1) 0 <<< 8) ||| frame.getD off 0) &&& 0x1E0) >>> 5
  , day := frame.getD off 0 &&& 0x1F
  , reading := int32OfBits ((frame.getD (off + 5) 0 <<< 24) |||
      (frame.getD (off + 4) 0 <<< 16) |||
      (frame.getD (off + 3) 0 <<< 8) ||| frame.getD (off + 2) 0) }

/-- The fixed 15-record interpretation loop of em_read_months. -/
def em_read_months_records (frame : List Nat) : List MonthRec :=
  (List.range 15).map (em_month_rec frame)

/-- The request frame of em_read_months, checksum slot zero; sub is 0x02
for the end-of-month pass and 0x03 for the mid-month pass. -/
def em_read_months_frame_out (sub : Nat) : List Nat :=
  [0x68, 8, 8, 0x68, 0x53, 254, 0x51, 0x0f, sub, 0x00, 0x00, 0x60, 0x00, 0x16]

/-- One request/response pass of em_read_months: requires a validated
long-frame reply of consumed length at least 111, then decodes the 15
fixed-stride records. -/
def em_read_months_one (sub : Nat) (reply : List Nat) :
    List (List Nat) × Nat × List MonthRec :=
  match mbus_io (em_read_months_frame_out sub) 256 reply with
  | (w, .error e) => (w, errnoOf e, [])
  | (w, .ok recvd) =>
      if mbus_checklong recvd recvd.length < 111 then (w, 71, [])
      else (w, 0, em_read_months_records recvd)

/-- The set-AES-key long frame of em_set_aes with its sample key,
checksum slot zero. -/
def em_set_aes_frame : List Nat :=
  [0x68, 28, 28, 0x68, 0x53, 254, 0x51,
   0x0f, 0x83, 0x00, 0x00, 0x60, 0x00, 0x00, 0x00, 0x00,
   0x89, 0x4f, 0x9f, 0x34, 0xcd, 0xd1, 0x93, 0x41,
   0xab, 0xdc, 0xff, 0x5b, 0xea, 0x66, 0x10, 0xbc,
   0x00, 0x16]

/-- The set-AES frame after mbus_io has filled in the checksum byte. -/
def em_set_aes_sent : List Nat := mbus_fill_long em_set_aes_frame

/-- em_set_aes from the source. The source places an unconditional
return 7 guard before the transmit call, commented NOT TESTED, remove if
you know what you are doing; confirmed models whether that guard has been
removed by the operator. As shipped, confirmed is false and the function
returns 7 without touching the transport. -/
def em_set_aes (confirmed : Bool) (reply : List Nat) : List (List Nat) × Nat :=
  if confirmed then mbus_io_acked em_set_aes_frame reply
  else ([], 7)

/-- A structurally valid minimal long frame: L = 3, consumed length 9,
checksum (0x53 + 254 + 0x51) mod 256 = 162. -/
def min_long_frame : List Nat := [0x68, 3, 3, 0x68, 0x53, 254, 0x51, 162, 0x16]

/-- A structurally valid 111-byte response frame: L = 105, C 0x08,
address 1, CI 0x72, all-zero application payload, checksum
(0x08 + 1 + 0x72) mod 256 = 123. Used as a concrete accepted response for
em_read_info and em_read_months. -/
def month_reply : List Nat :=
  [0x68, 105, 105, 0x68, 0x08, 1, 0x72] ++ List.replicate 102 0 ++ [123, 0x16]

/-- Like month_reply, but with byte 24 (the top byte of the first
record's reading) set to 0x80, and the checksum adjusted accordingly to
(0x08 + 1 + 0x72 + 0x80) mod 256 = 251. Still a structurally valid
111-byte response; its first record's reading is negative. -/
def month_reply_neg : List Nat :=
  [0x68, 105, 105, 0x68, 0x08, 1, 0x72] ++ List.replicate 17 0 ++ [0x80] ++
    List.replicate 84 0 ++ [251, 0x16]

/-! Helper lemmas shared by the claim theorems. -/

theorem cs_foldl_getD_eq_sum (frame : List Nat) (idx : List Nat) : ∀ a : Nat,
    idx.foldl (fun cs i => (cs + frame.getD i 0) % 256) (a % 256)
      = (a + (idx.map fun i => frame.getD i 0).sum) % 256 := by
  induction idx with
  | nil => intro a; simp
  | cons x t ih =>
      intro a
      simp only [List.foldl_cons, List.map_cons, List.sum_cons]
      have h1 : (a % 256 + frame.getD x 0) % 256 = (a + frame.getD x 0) % 256 := by
        omega
      rw [h1, ih (a + frame.getD x 0)]
      omega

theorem cs_foldl_congr (f g : List Nat) : ∀ (cnt s : Nat), ∀ cs : Nat,
    (∀ i, s ≤ i → i < s + cnt → f.getD i 0 = g.getD i 0) →
    (List.range' s cnt).foldl (fun acc i => (acc + f.getD i 0) % 256) cs
      = (List.range' s cnt).foldl (fun acc i => (acc + g.getD i 0) % 256) cs := by
  intro cnt
  induction cnt with
  | zero => intro s cs _; rfl
  | succ n ih =>
      intro s cs h
      rw [List.range'_succ]
      simp only [List.foldl_cons]
      rw [h s (Nat.le_refl s) (by omega)]
      exact ih (s + 1) _ fun i h1 h2 => h i (by omega) (by omega)

theorem mbus_cslong_congr (f g : List Nat) (len : Nat)
    (h : ∀ i, i < len - 2 → f.getD i 0 = g.getD i 0) :
    mbus_cslong f len = mbus_cslong g len := by
  unfold mbus_cslong
  exact cs_foldl_congr f g (len - 2 - 4) 4 0 fun i h1 h2 => h i (by omega)

theorem getD_append_left_my (l1 l2 : List Nat) (n d : Nat) (h : n < l1.length) :
    (l1 ++ l2).getD n d = l1.getD n d := by
  induction l1 generalizing n with
  | nil => simp at h
  | cons x t ih =>
      cases n with
      | zero => rfl
      | succ m =>
          simp only [List.cons_append, List.getD_cons_succ]
          exact ih m (by simpa using h)

theorem getD_append_right_my (l1 l2 : List Nat) (n d : Nat) :
    (l1 ++ l2).getD (l1.length + n) d = l2.getD n d := by
  induction l1 with
  | nil => simp
  | cons x t ih =>
      have h1 : (x :: t).length + n = (t.length + n) + 1 := by
        simp [List.length_cons]
        omega
      rw [h1, List.cons_append, List.getD_cons_succ, ih]

theorem take_length_append_my (l1 l2 : List Nat) : (l1 ++ l2).take l1.length = l1 := by
  induction l1 with
  | nil => rfl
  | cons x t ih => simp [ih]

/-! The claim theorems. -/

/-- Claim C2: mbus_cslong(frame, len) for len at least 6 is the arithmetic
sum modulo 256 of exactly the bytes at offsets 4 through len - 3
inclusive, the command, address, control-info and payload region. -/
theorem mbus_cslong_is_sum (frame : List Nat) (len : Nat) (h : 6 ≤ len) :
    mbus_cslong frame len =
      ((List.range' 4 (len - 6)).map fun i => frame.getD i 0).sum % 256 := by
  unfold mbus_cslong
  have h26 : len - 2 - 4 = len - 6 := by omega
  rw [h26]
  have h0 := cs_foldl_getD_eq_sum frame (List.range' 4 (len - 6)) 0
  simpa using h0

theorem mbus_cslong_is_sum_witness :
    6 ≤ 8 ∧ mbus_cslong [1, 2, 3, 4, 5, 6, 7, 8] 8 =
      ((List.range' 4 (8 - 6)).map
        fun i => ([1, 2, 3, 4, 5, 6, 7, 8] : List Nat).getD i 0).sum % 256 :=
  ⟨by omega, mbus_cslong_is_sum [1, 2, 3, 4, 5, 6, 7, 8] 8 (by omega)⟩

/-- Claim C3: as shipped (safety confirmation absent), em_set_aes writes
nothing to the transport and returns the failure code 7, whatever the
device would reply. -/
theorem em_set_aes_safety (reply : List Nat) :
    (em_set_aes false reply).1 = [] ∧ (em_set_aes false reply).2 ≠ 0 := by
  constructor
  · rfl
  · simp [em_set_aes]

/-- Claim C5 (amended): the too-small branch of mbus_checklong is taken
exactly when the buffer length is below 9 = MBUS_FRAME_LONG_HDR_LEN +
MBUS_FRAME_FTR_LEN, not below 8 as the spec states. -/
theorem mbus_checklong_tooSmall_iff (data : List Nat) (len : Nat) :
    mbus_checklong_err data len = Except.error LongErr.tooSmall ↔ len < 9 := by
  unfold mbus_checklong_err
  split_ifs <;> simp_all

/-- Claim C5 counterexample: a buffer of length 8 is rejected through the
too-small branch although the claim says the threshold is 8. -/
theorem mbus_checklong_tooSmall_cex :
    mbus_checklong_err (List.replicate 8 0x68) 8 = Except.error LongErr.tooSmall ∧
      ¬ (8 < 8) := ⟨rfl, by omega⟩

/-- Claim C7 (amended): the record byte sequence 04 6D 00 00 60 01
decodes as the datetime year 2003, month 1, day 0, hour 0, minute 0: the
three top bits of the packed byte 0x60 contribute 3 to the year, so the
year is 2003, not 2000 as the spec states. -/
theorem em_datetime_vector :
    (em_decode_record [0x04, 0x6D, 0x00, 0x00, 0x60, 0x01] 0).1.val =
      some (MVal.datetime 2003 1 0 0 0) := by decide

/-- Claim C7 counterexample: on the claim's own test vector the decoded
datetime is not minute 0, hour 0, day 0, month 1, year 2000. -/
theorem em_datetime_vector_cex :
    ¬ (em_decode_record [0x04, 0x6D, 0x00, 0x00, 0x60, 0x01] 0).1.val =
      some (MVal.datetime 2000 1 0 0 0) := by decide

/-- Claim C10: whenever mbus_checklong succeeds (returns a nonzero
consumed length), that length is bounded by the buffer length passed in. -/
theorem mbus_checklong_consumed_le (data : List Nat) (len : Nat)
    (h : mbus_checklong data len ≠ 0) : mbus_checklong data len ≤ len := by
  unfold mbus_checklong mbus_checklong_err at h ⊢
  split_ifs at h ⊢ with h1 h2 h3 h4 h5 h6 <;> simp_all

theorem mbus_checklong_consumed_le_witness :
    mbus_checklong min_long_frame 9 ≠ 0 ∧ mbus_checklong min_long_frame 9 ≤ 9 :=
  ⟨by decide, mbus_checklong_consumed_le min_long_frame 9 (by decide)⟩

/-- Claim C4 (amended): given a self-validating outbound frame,
mbus_io_acked succeeds exactly when at least one byte is delivered and the
first delivered byte is the ACK 0xE5; trailing bytes are not inspected. A
zero-byte reply yields the I/O error code EIO = 5 (the serial_read
timeout), a nonempty non-ACK reply the protocol error EPROTO = 71. -/
theorem mbus_io_acked_ack_iff (out sent reply : List Nat)
    (hsent : mbus_io_out out = some sent) :
    (mbus_io_acked out reply).2 =
      if reply.take 8 = [] then 5
      else if (reply.take 8).getD 0 0 = 0xE5 then 0 else 71 := by
  unfold mbus_io_acked mbus_io
  rw [hsent]
  by_cases he : reply.take 8 = []
  · simp [he, errnoOf]
  · have hne : (reply.take 8).isEmpty = false := by
      simpa [List.isEmpty_iff] using he
    by_cases hg : (reply.take 8).getD 0 0 = 0xE5 <;> simp_all

theorem mbus_io_acked_ack_iff_witness :
    mbus_io_out em_set_aes_frame = some em_set_aes_sent ∧
    (mbus_io_acked em_set_aes_frame [0xE5]).2 =
      (if ([0xE5] : List Nat).take 8 = [] then 5
       else if (([0xE5] : List Nat).take 8).getD 0 0 = 0xE5 then 0 else 71) :=
  ⟨by decide, mbus_io_acked_ack_iff em_set_aes_frame em_set_aes_sent [0xE5] (by decide)⟩

/-- Claim C4 counterexample: a delivered reply of two bytes whose first
byte is the ACK makes mbus_io_acked succeed, contradicting the claim that
success requires a reply of exactly one byte. -/
theorem mbus_io_acked_ack_cex :
    (mbus_io_acked em_set_aes_frame [0xE5, 0xE5]).2 = 0 ∧
      ([0xE5, 0xE5] : List Nat).length ≠ 1 := by decide

/-- Claim C9: mbus_io writes to the transport exactly when the outbound
buffer has the short-frame shape (length 5, first byte 0x10) and, with
its checksum slot filled, passes mbus_checkshort, or does not have the
short shape but has the long-frame shape (length at least 9, first byte
0x68) and, filled, passes mbus_checklong; in every other case it writes
nothing and returns the protocol error. -/
theorem mbus_io_outbound_gate (out : List Nat) (inlen : Nat) (reply : List Nat) :
    ((mbus_io out inlen reply).1 ≠ [] ↔
      ((out.length = 5 ∧ out.getD 0 0 = 0x10) ∧
        mbus_checkshort (mbus_fill_short out) out.length ≠ 0) ∨
      (¬ (out.length = 5 ∧ out.getD 0 0 = 0x10) ∧
        (9 ≤ out.length ∧ out.getD 0 0 = 0x68) ∧
        mbus_checklong (mbus_fill_long out) out.length ≠ 0)) ∧
    ((mbus_io out inlen reply).1 = [] →
      (mbus_io out inlen reply).2 = Except.error MbusErr.eproto) := by
  by_cases h1 : out.length = 5 ∧ out.getD 0 0 = 0x10
  · by_cases h2 : mbus_checkshort (mbus_fill_short out) out.length = 0
    · have hio : mbus_io_out out = none := by
        unfold mbus_io_out
        rw [if_pos h1, if_pos h2]
      simp only [mbus_io, hio]
      refine ⟨⟨fun hx => absurd rfl hx, ?_⟩, fun _ => trivial⟩
      rintro (⟨_, hB⟩ | ⟨hnA, _, _⟩)
      · exact absurd h2 hB
      · exact absurd h1 hnA
    · have hio : mbus_io_out out = some (mbus_fill_short out) := by
        unfold mbus_io_out
        rw [if_pos h1, if_neg h2]
      simp only [mbus_io, hio]
      refine ⟨⟨fun _ => Or.inl ⟨h1, h2⟩, fun _ => List.cons_ne_nil _ _⟩, ?_⟩
      intro hw
      exact absurd hw (List.cons_ne_nil _ _)
  · by_cases h3 : 9 ≤ out.length ∧ out.getD 0 0 = 0x68
    · by_cases h4 : mbus_checklong (mbus_fill_long out) out.length = 0
      · have hio : mbus_io_out out = none := by
          unfold mbus_io_out
          rw [if_neg h1, if_pos h3, if_pos h4]
        simp only [mbus_io, hio]
        refine ⟨⟨fun hx => absurd rfl hx, ?_⟩, fun _ => trivial⟩
        rintro (⟨hA, _⟩ | ⟨_, _, hD⟩)
        · exact absurd hA h1
        · exact absurd h4 hD
      · have hio : mbus_io_out out = some (mbus_fill_long out) := by
          unfold mbus_io_out
          rw [if_neg h1, if_pos h3, if_neg h4]
        simp only [mbus_io, hio]
        refine ⟨⟨fun _ => Or.inr ⟨h1, h3, h4⟩, fun _ => List.cons_ne_nil _ _⟩, ?_⟩
        intro hw
        exact absurd hw (List.cons_ne_nil _ _)
    · have hio : mbus_io_out out = none := by
        unfold mbus_io_out
        rw [if_neg h1, if_neg h3]
      simp only [mbus_io, hio]
      refine ⟨⟨fun hx => absurd rfl hx, ?_⟩, fun _ => trivial⟩
      rintro (⟨hA, _⟩ | ⟨_, hC, _⟩)
      · exact absurd hA h1
      · exact absurd hC h3

/-- Claim C6: on any reply whose validated consumed length reaches the 71
byte floor, em_read_info returns the success code 0, and from any cursor
at which the DIF low nibble exceeds 7 the record loop stops at once,
yielding no further records. -/
theorem em_read_info_graceful (reply : List Nat) (p fuel : Nat)
    (hacc : 71 ≤ mbus_checklong (reply.take 256) (reply.take 256).length)
    (hdf : 7 < (reply.take 256).getD p 0 &&& 0xF) :
    (em_read_info reply).2.1 = 0 ∧
      em_info_records (reply.take 256) (fuel + 1) p = [] := by
  constructor
  · unfold em_read_info mbus_io
    have hio : mbus_io_out em_read_info_frame_out =
        some [0x10, 0x7b, 254, 121, 0x16] := by decide
    rw [hio]
    have hne : (reply.take 256).isEmpty = false := by
      rcases hemp : (reply.take 256).isEmpty
      · rfl
      · exfalso
        have h0 : reply.take 256 = [] := by
          simpa [List.isEmpty_iff] using hemp
        rw [h0] at hacc
        simp [mbus_checklong, mbus_checklong_err] at hacc
    have hnl : ¬ mbus_checklong (reply.take 256) (reply.take 256).length < 71 := by
      omega
    simp only [hne, Bool.false_eq_true, if_false]
    rw [if_neg hnl]
  · rw [em_info_records, if_pos hdf]

theorem em_read_info_graceful_witness :
    (71 ≤ mbus_checklong (month_reply.take 256) (month_reply.take 256).length ∧
      7 < (month_reply.take 256).getD 4 0 &&& 0xF) ∧
    ((em_read_info month_reply).2.1 = 0 ∧
      em_info_records (month_reply.take 256) 1 4 = []) :=
  ⟨⟨by decide, by decide⟩, em_read_info_graceful month_reply 4 0 (by decide) (by decide)⟩

theorem and_shift_le (x m k : Nat) : (x &&& m) >>> k ≤ m >>> k := by
  rw [Nat.shiftRight_eq_div_pow, Nat.shiftRight_eq_div_pow]
  exact Nat.div_le_div_right Nat.and_le_right

theorem int32OfBits_bounds (u : Nat) :
    -(2 ^ 31) ≤ int32OfBits u ∧ int32OfBits u < 2 ^ 31 := by
  unfold int32OfBits
  have h0 : u % 2 ^ 32 < 2 ^ 32 := Nat.mod_lt _ (by norm_num)
  constructor <;> split_ifs with h <;> omega

theorem em_month_rec_year_bounds (frame : List Nat) (i : Nat) :
    2000 ≤ (em_month_rec frame i).year ∧ (em_month_rec frame i).year ≤ 2127 := by
  simp only [em_month_rec]
  refine ⟨Nat.le_add_right _ _, ?_⟩
  have h := and_shift_le (frame.getD (7 + 12 + i * 6 + 1) 0) 0xFE 1
  have h2 : (0xFE : Nat) >>> 1 = 127 := by decide
  omega

theorem em_month_rec_month_le (frame : List Nat) (i : Nat) :
    (em_month_rec frame i).month ≤ 15 := by
  simp only [em_month_rec]
  have h := and_shift_le
    ((frame.getD (7 + 12 + i * 6 + 1) 0 <<< 8) ||| frame.getD (7 + 12 + i * 6) 0) 0x1E0 5
  have h2 : (0x1E0 : Nat) >>> 5 = 15 := by decide
  omega

theorem em_month_rec_day_le (frame : List Nat) (i : Nat) :
    (em_month_rec frame i).day ≤ 31 := by
  simp only [em_month_rec]
  exact Nat.and_le_right

theorem em_month_rec_reading_bounds (frame : List Nat) (i : Nat) :
    -(2 ^ 31) ≤ (em_month_rec frame i).reading ∧
      (em_month_rec frame i).reading < 2 ^ 31 := by
  simp only [em_month_rec]
  exact int32OfBits_bounds _

/-- Claim C8 (amended): on every response accepted by an em_read_months
pass (validated consumed length at least 111), the interpretation decodes
exactly 15 records at the fixed 6-byte stride starting at offset 19, and
every record has year between 2000 and 2127, month at most 15, day at
most 31, and a reading that is the two s-complement signed 32-bit value
of the four record bytes, lying in -(2 to the 31) .. 2 to the 31 - 1.
The code does not constrain the month to 1..12 nor the day to 1..31
(both can decode to 0), and the reading is not nonnegative in general:
the assembly at em-admin.c line 557 is plain signed int arithmetic with
no unsigned cast, so a top byte of 0x80 or more yields a negative
reading even on an accepted response. -/
theorem em_read_months_decode (sub : Nat) (reply : List Nat)
    (hsub : sub = 2 ∨ sub = 3)
    (_hb : ∀ b ∈ reply, b < 256)
    (hacc : 111 ≤ mbus_checklong (reply.take 256) (reply.take 256).length) :
    (em_read_months_one sub reply).2.1 = 0 ∧
    (em_read_months_one sub reply).2.2.length = 15 ∧
    ∀ r ∈ (em_read_months_one sub reply).2.2,
      2000 ≤ r.year ∧ r.year ≤ 2127 ∧ r.month ≤ 15 ∧ r.day ≤ 31 ∧
        -(2 ^ 31) ≤ r.reading ∧ r.reading < 2 ^ 31 := by
  have hio : mbus_io_out (em_read_months_frame_out sub) =
      some (mbus_fill_long (em_read_months_frame_out sub)) := by
    rcases hsub with h | h <;> subst h <;> decide
  have hne : (reply.take 256).isEmpty = false := by
    rcases hemp : (reply.take 256).isEmpty
    · rfl
    · exfalso
      have h0 : reply.take 256 = [] := by
        simpa [List.isEmpty_iff] using hemp
      rw [h0] at hacc
      simp [mbus_checklong, mbus_checklong_err] at hacc
  have hnl : ¬ mbus_checklong (reply.take 256) (reply.take 256).length < 111 := by
    omega
  have hmain : em_read_months_one sub reply =
      ([mbus_fill_long (em_read_months_frame_out sub)], 0,
        em_read_months_records (reply.take 256)) := by
    unfold em_read_months_one mbus_io
    rw [hio]
    simp only [hne, Bool.false_eq_true, if_false]
    rw [if_neg hnl]
  rw [hmain]
  refine ⟨rfl, by simp [em_read_months_records], ?_⟩
  intro r hr
  rw [em_read_months_records] at hr
  obtain ⟨i, _, rfl⟩ := List.mem_map.mp hr
  obtain ⟨hy1, hy2⟩ := em_month_rec_year_bounds (reply.take 256) i
  obtain ⟨hr1, hr2⟩ := em_month_rec_reading_bounds (reply.take 256) i
  exact ⟨hy1, hy2, em_month_rec_month_le _ i, em_month_rec_day_le _ i, hr1, hr2⟩

theorem em_read_months_decode_witness :
    ((2 = 2 ∨ 2 = 3) ∧ (∀ b ∈ month_reply, b < 256) ∧
      111 ≤ mbus_checklong (month_reply.take 256) (month_reply.take 256).length) ∧
    ((em_read_months_one 2 month_reply).2.1 = 0 ∧
      (em_read_months_one 2 month_reply).2.2.length = 15 ∧
      ∀ r ∈ (em_read_months_one 2 month_reply).2.2,
        2000 ≤ r.year ∧ r.year ≤ 2127 ∧ r.month ≤ 15 ∧ r.day ≤ 31 ∧
          -(2 ^ 31) ≤ r.reading ∧ r.reading < 2 ^ 31) :=
  ⟨⟨Or.inl rfl, by decide, by decide⟩,
    em_read_months_decode 2 month_reply (Or.inl rfl) (by decide) (by decide)⟩

/-- Claim C8 counterexample: the structurally valid response
month_reply_neg is accepted by the em_read_months pass (return code 0),
yet its first decoded record has month 0 and day 0, contradicting the
claimed ranges month in 1..12 and day in 1..31, and its reading is
negative (the top record byte 0x80 overflows the signed 32-bit int),
contradicting the claimed reading at least 0. -/
theorem em_read_months_decode_cex :
    (em_read_months_one 2 month_reply_neg).2.1 = 0 ∧
      ((em_read_months_one 2 month_reply_neg).2.2.getD 0 ⟨0, 0, 0, 0⟩).month = 0 ∧
      ((em_read_months_one 2 month_reply_neg).2.2.getD 0 ⟨0, 0, 0, 0⟩).day = 0 ∧
      ((em_read_months_one 2 month_reply_neg).2.2.getD 0 ⟨0, 0, 0, 0⟩).reading < 0 := by
  decide

theorem set_append_ge (l1 l2 : List Nat) (n a : Nat) (h : l1.length ≤ n) :
    (l1 ++ l2).set n a = l1 ++ l2.set (n - l1.length) a := by
  induction l1 generalizing n with
  | nil => simp
  | cons x t ih =>
      cases n with
      | zero => simp at h
      | succ m =>
          rw [List.cons_append, List.set_cons_succ, ih m (by simpa using h)]
          simp [Nat.succ_sub_succ]

theorem mbus_build_long_length (c a ci : Nat) (payload : List Nat) :
    (mbus_build_long c a ci payload).length = 9 + payload.length := by
  unfold mbus_build_long
  simp
  omega

theorem frameFilled_length (c a ci v : Nat) (payload : List Nat) :
    (frameFilled c a ci v payload).length = 9 + payload.length := by
  unfold frameFilled
  simp
  omega

theorem header_payload_length (c a ci : Nat) (payload : List Nat) :
    (([0x68, 3 + payload.length, 3 + payload.length, 0x68, c, a, ci] : List Nat) ++
      payload).length = 7 + payload.length := by
  simp
  omega

theorem frameFilled_set (c a ci v w : Nat) (payload : List Nat) :
    (frameFilled c a ci v payload).set (7 + payload.length) w =
      frameFilled c a ci w payload := by
  unfold frameFilled
  rw [set_append_ge ([0x68, 3 + payload.length, 3 + payload.length, 0x68, c, a, ci] ++
      payload) [v, 0x16] (7 + payload.length) w
      (by rw [header_payload_length])]
  rw [header_payload_length, Nat.sub_self]
  rfl

theorem frameFilled_getD_stop (c a ci v : Nat) (payload : List Nat) :
    (frameFilled c a ci v payload).getD (8 + payload.length) 0 = 0x16 := by
  unfold frameFilled
  have e1 : 8 + payload.length =
      (([0x68, 3 + payload.length, 3 + payload.length, 0x68, c, a, ci] : List Nat) ++
        payload).length + 1 := by
    rw [header_payload_length]
    omega
  rw [e1]
  exact getD_append_right_my _ [v, 0x16] 1 0

theorem frameFilled_getD_chk (c a ci v : Nat) (payload : List Nat) :
    (frameFilled c a ci v payload).getD (7 + payload.length) 0 = v := by
  unfold frameFilled
  have e1 : 7 + payload.length =
      (([0x68, 3 + payload.length, 3 + payload.length, 0x68, c, a, ci] : List Nat) ++
        payload).length := (header_payload_length c a ci payload).symm
  rw [e1]
  exact getD_append_right_my _ [v, 0x16] 0 0

theorem frameFilled_cslong_indep (c a ci v w : Nat) (payload : List Nat) :
    mbus_cslong (frameFilled c a ci v payload) (9 + payload.length) =
      mbus_cslong (frameFilled c a ci w payload) (9 + payload.length) := by
  apply mbus_cslong_congr
  intro i hi
  have hi7 : i < 7 + payload.length := by omega
  unfold frameFilled
  rw [getD_append_left_my _ [v, 0x16] i 0
      (by rw [header_payload_length]; exact hi7),
    getD_append_left_my _ [w, 0x16] i 0
      (by rw [header_payload_length]; exact hi7)]

theorem frameFilled_checklong (c a ci v : Nat) (payload : List Nat)
    (hlen : payload.length ≤ 246)
    (hsum : mbus_cslong (frameFilled c a ci v payload) (9 + payload.length) = v) :
    mbus_checklong (frameFilled c a ci v payload) (9 + payload.length) =
      9 + payload.length := by
  have h0 : (frameFilled c a ci v payload).getD 0 0 = 0x68 := rfl
  have h1 : (frameFilled c a ci v payload).getD 1 0 = 3 + payload.length := rfl
  have h2 : (frameFilled c a ci v payload).getD 2 0 = 3 + payload.length := rfl
  have h3 : (frameFilled c a ci v payload).getD 3 0 = 0x68 := rfl
  unfold mbus_checklong mbus_checklong_err
  rw [h1, h2]
  have hll : (3 + payload.length + 4 + 2) % 256 = 9 + payload.length := by omega
  rw [hll]
  have h81 : 9 + payload.length - 1 = 8 + payload.length := by omega
  have h72 : 9 + payload.length - 2 = 7 + payload.length := by omega
  rw [h81, h72]
  rw [if_neg (by omega : ¬ (9 + payload.length < 9))]
  rw [if_neg (show ¬ ((frameFilled c a ci v payload).getD 0 0 ≠ 0x68 ∨
      (frameFilled c a ci v payload).getD 3 0 ≠ 0x68) from by
    push_neg
    exact ⟨h0, h3⟩)]
  rw [if_neg (show ¬ (3 + payload.length ≠ 3 + payload.length) from fun h => h rfl)]
  rw [if_neg (by omega : ¬ (9 + payload.length > 9 + payload.length))]
  rw [if_neg (show ¬ ((frameFilled c a ci v payload).getD (8 + payload.length) 0 ≠ 0x16)
    from fun h => h (frameFilled_getD_stop c a ci v payload))]
  rw [if_neg (show ¬ (mbus_cslong (frameFilled c a ci v payload) (9 + payload.length) ≠
      (frameFilled c a ci v payload).getD (7 + payload.length) 0) from fun h =>
    h (hsum.trans (frameFilled_getD_chk c a ci v payload).symm))]

/-- Claim C1 (amended): building a long frame from control c, address a,
control-info ci and a payload of length at most 246 and passing it
through the outbound path of mbus_io (which fills the checksum) makes
mbus_checklong succeed, consuming the whole frame, and the frame carries
c, a, ci and the payload unchanged. For payload lengths 247 to 252 the
claim fails: the validator's one-byte consumed-length variable, declared
length plus 6 truncated modulo 256, wraps around and validation rejects
the frame (for length 247 it would even index before the buffer). -/
theorem mbus_long_roundtrip (c a ci : Nat) (payload : List Nat)
    (_hc : c < 256) (_ha : a < 256) (_hci : ci < 256)
    (_hpb : ∀ b ∈ payload, b < 256) (hlen : payload.length ≤ 246) :
    ∃ sent, mbus_io_out (mbus_build_long c a ci payload) = some sent ∧
      mbus_checklong sent sent.length = sent.length ∧
      sent.getD 4 0 = c ∧ sent.getD 5 0 = a ∧ sent.getD 6 0 = ci ∧
      (sent.drop 7).take payload.length = payload := by
  have hsum : mbus_cslong (frameFilled c a ci
      (mbus_cslong (mbus_build_long c a ci payload) (9 + payload.length)) payload)
      (9 + payload.length) =
      mbus_cslong (mbus_build_long c a ci payload) (9 + payload.length) :=
    frameFilled_cslong_indep c a ci _ 0 payload
  have hchk := frameFilled_checklong c a ci
    (mbus_cslong (mbus_build_long c a ci payload) (9 + payload.length)) payload hlen hsum
  have hBlen := mbus_build_long_length c a ci payload
  have hfill : mbus_fill_long (mbus_build_long c a ci payload) =
      frameFilled c a ci
        (mbus_cslong (mbus_build_long c a ci payload) (9 + payload.length)) payload := by
    unfold mbus_fill_long
    rw [hBlen]
    have h72 : 9 + payload.length - 2 = 7 + payload.length := by omega
    rw [h72]
    exact frameFilled_set c a ci 0 _ payload
  refine ⟨frameFilled c a ci
      (mbus_cslong (mbus_build_long c a ci payload) (9 + payload.length)) payload,
      ?_, ?_, rfl, rfl, rfl, ?_⟩
  · have hshort : ¬ ((mbus_build_long c a ci payload).length = 5 ∧
        (mbus_build_long c a ci payload).getD 0 0 = 0x10) := by
      rintro ⟨h5, _⟩
      rw [hBlen] at h5
      omega
    have hlong : 9 ≤ (mbus_build_long c a ci payload).length ∧
        (mbus_build_long c a ci payload).getD 0 0 = 0x68 := by
      constructor
      · rw [hBlen]
        omega
      · rfl
    unfold mbus_io_out
    rw [if_neg hshort, if_pos hlong, hfill, hBlen, hchk]
    rw [if_neg (by omega : ¬ (9 + payload.length = 0))]
  · rw [frameFilled_length, hchk]
  · exact take_length_append_my payload _

theorem mbus_long_roundtrip_witness :
    ((0x53 : Nat) < 256 ∧ (254 : Nat) < 256 ∧ (0x51 : Nat) < 256 ∧
      (∀ b ∈ ([1, 2, 3] : List Nat), b < 256) ∧ ([1, 2, 3] : List Nat).length ≤ 246) ∧
    (∃ sent, mbus_io_out (mbus_build_long 0x53 254 0x51 [1, 2, 3]) = some sent ∧
      mbus_checklong sent sent.length = sent.length ∧
      sent.getD 4 0 = 0x53 ∧ sent.getD 5 0 = 254 ∧ sent.getD 6 0 = 0x51 ∧
      (sent.drop 7).take ([1, 2, 3] : List Nat).length = [1, 2, 3]) :=
  ⟨⟨by decide, by decide, by decide, by decide, by decide⟩,
    mbus_long_roundtrip 0x53 254 0x51 [1, 2, 3] (by decide) (by decide) (by decide)
      (by decide) (by decide)⟩

/-- Claim C1 counterexample: at payload length 250 (within the claimed
range 0..252) the built frame does not validate: the consumed-length byte
wraps to 3 and the stop-byte check fails, so the outbound path of mbus_io
returns the protocol error instead of transmitting. -/
theorem mbus_long_roundtrip_cex :
    (List.replicate 250 (0 : Nat)).length = 250 ∧
      mbus_io_out (mbus_build_long 0x53 254 0x51 (List.replicate 250 0)) = none := by
  decide

end EmAdmin
